import Mathlib

/-!
Verification development for the `wasm/key_utils` module of tari-crypto.

The module exposes Schnorr-signature operations over a hex-string boundary:
`pubkey_from_secret`, `sign`, `sign_challenge_with_nonce` and `check_signature`,
built on the helpers `sign_message_with_key` and `sign_with_key`.

The elliptic-curve collaborator (Ristretto), the challenge hasher (Blake256)
and the hex codec live outside the translated source file; they are modelled
from the specification as a Schnorr scheme over the scalar field of a fixed
group order, with points identified by their discrete logarithms, and a
deterministic fixed-width hash.  All definitions are executable.
-/

namespace KeyUtils

/-- Modelled from the spec: the order of the Curve collaborator's scalar field
(the Ristretto group order). -/
def L : Nat := 2 ^ 252 + 27742317777372353535851937790883648493

/-- Value of a single hex digit, accepting both lower and upper case
(as Rust's `u8::from_str_radix` does). -/
def hexDigitVal (c : Char) : Option Nat :=
  if 48 ≤ c.toNat ∧ c.toNat ≤ 57 then some (c.toNat - 48)
  else if 97 ≤ c.toNat ∧ c.toNat ≤ 102 then some (c.toNat - 97 + 10)
  else if 65 ≤ c.toNat ∧ c.toNat ≤ 70 then some (c.toNat - 65 + 10)
  else none

/-- Decode a list of hex characters, two per byte; fails on odd length or a
character that is not a hex digit. -/
def fromHexChars : List Char → Option (List Nat)
  | [] => some []
  | [_] => none
  | c1 :: c2 :: cs =>
    match hexDigitVal c1, hexDigitVal c2, fromHexChars cs with
    | some hi, some lo, some bs => some ((16 * hi + lo) :: bs)
    | _, _, _ => none

/-- Modelled from the spec: `tari_utilities::hex::from_hex`, hex string to raw
bytes. -/
def from_hex (s : String) : Option (List Nat) :=
  fromHexChars s.data

/-- Lowercase hex digit for a value below 16. -/
def hexDigitChar (n : Nat) : Char :=
  if n < 10 then Char.ofNat (48 + n) else Char.ofNat (87 + n)

/-- Encode bytes as lowercase hex characters, two per byte. -/
def toHexChars : List Nat → List Char
  | [] => []
  | b :: bs => hexDigitChar (b / 16) :: hexDigitChar (b % 16) :: toHexChars bs

/-- Modelled from the spec: `to_hex`, bytes to a lowercase hex string. -/
def to_hex (bs : List Nat) : String :=
  String.mk (toHexChars bs)

/-- Little-endian byte encoding of a natural number into a fixed width. -/
def natToBytesLE : Nat → Nat → List Nat
  | 0, _ => []
  | len + 1, n => n % 256 :: natToBytesLE len (n / 256)

/-- Little-endian value of a byte list. -/
def bytesToNatLE : List Nat → Nat
  | [] => 0
  | b :: bs => b + 256 * bytesToNatLE bs

/-- The canonical 32-byte little-endian encoding used for scalars and
(in this model) for points. -/
def natToBytes32 (n : Nat) : List Nat :=
  natToBytesLE 32 n

theorem hexDigitVal_hexDigitChar : ∀ n < 16, hexDigitVal (hexDigitChar n) = some n := by
  decide

theorem fromHexChars_toHexChars :
    ∀ bs : List Nat, (∀ b ∈ bs, b < 256) → fromHexChars (toHexChars bs) = some bs := by
  intro bs
  induction bs with
  | nil => intro _; rfl
  | cons b rest ih =>
    intro h
    have hb : b < 256 := h b (List.mem_cons_self b rest)
    have hhi : b / 16 < 16 := Nat.div_lt_of_lt_mul hb
    have hlo : b % 16 < 16 := Nat.mod_lt b (by omega)
    have hrest : fromHexChars (toHexChars rest) = some rest :=
      ih fun x hx => h x (List.mem_cons_of_mem b hx)
    simp only [toHexChars, fromHexChars, hexDigitVal_hexDigitChar _ hhi,
      hexDigitVal_hexDigitChar _ hlo, hrest]
    congr 1
    congr 1
    omega

theorem natToBytesLE_length : ∀ len n, (natToBytesLE len n).length = len := by
  intro len
  induction len with
  | zero => intro n; rfl
  | succ m ih => intro n; simp [natToBytesLE, ih]

theorem natToBytesLE_mem_lt : ∀ len n b, b ∈ natToBytesLE len n → b < 256 := by
  intro len
  induction len with
  | zero => intro n b h; simp [natToBytesLE] at h
  | succ m ih =>
    intro n b h
    simp only [natToBytesLE, List.mem_cons] at h
    rcases h with h | h
    · subst h; exact Nat.mod_lt n (by omega)
    · exact ih _ b h

theorem bytesToNatLE_natToBytesLE : ∀ len n, bytesToNatLE (natToBytesLE len n) = n % 256 ^ len := by
  intro len
  induction len with
  | zero => intro n; simp [natToBytesLE, bytesToNatLE, Nat.mod_one]
  | succ m ih =>
    intro n
    simp only [natToBytesLE, bytesToNatLE, ih]
    rw [Nat.pow_succ, Nat.mul_comm (256 ^ m) 256, Nat.mod_mul]

theorem from_hex_to_hex (bs : List Nat) (h : ∀ b ∈ bs, b < 256) :
    from_hex (to_hex bs) = some bs := by
  simpa [from_hex, to_hex] using fromHexChars_toHexChars bs h

/-- Modelled from the spec: `RistrettoSecretKey::from_hex` — canonical
fixed-width decode of a scalar: 32 bytes, value below the group order. -/
def secretFromHex (s : String) : Option Nat :=
  match from_hex s with
  | some bs => if bs.length = 32 ∧ bytesToNatLE bs < L then some (bytesToNatLE bs) else none
  | none => none

/-- Modelled from the spec: `RistrettoPublicKey::from_hex` — canonical
fixed-width decode of a point.  In this model a point is identified by its
discrete logarithm to the base point, so the encoding coincides with the
scalar encoding. -/
def pubFromHex (s : String) : Option Nat :=
  match from_hex s with
  | some bs => if bs.length = 32 ∧ bytesToNatLE bs < L then some (bytesToNatLE bs) else none
  | none => none

/-- Modelled from the spec: canonical hex encoding of a scalar. -/
def scalarToHex (x : Nat) : String :=
  to_hex (natToBytes32 (x % L))

/-- Modelled from the spec: canonical hex encoding of a point (identified by
its discrete logarithm). -/
def pointToHex (p : Nat) : String :=
  to_hex (natToBytes32 (p % L))

/-- Modelled from the spec: `RistrettoPublicKey::from_secret_key` — scalar
multiplication of the base point, i.e. the discrete logarithm reduced mod the
group order. -/
def from_secret_key (k : Nat) : Nat :=
  k % L

/-- Modelled from the spec: conversion of raw challenge bytes to a scalar
inside the Curve collaborator; requires the fixed 32-byte width and reduces
mod the group order. -/
def scalarFromChallenge (e : List Nat) : Option Nat :=
  if e.length = 32 then some (bytesToNatLE e % L) else none

/-- Modelled from the spec: `RistrettoSchnorr::sign` — `s = r + e·k`; fails
when the challenge bytes are not a valid scalar or on a degenerate (zero)
nonce. -/
def curveSign (k r : Nat) (e : List Nat) : Except String Nat :=
  match scalarFromChallenge e with
  | none => Except.error "Challenge is not a valid scalar"
  | some ec =>
    if r % L = 0 then Except.error "The nonce scalar is degenerate"
    else Except.ok ((r + ec * k) % L)

/-- A Schnorr signature `(R, s)`, the point `R` identified by its discrete
logarithm. -/
structure RistrettoSchnorr where
  public_nonce : Nat
  s_scalar : Nat
deriving DecidableEq

/-- Modelled from the spec: `verify_challenge` — checks the linear relation
`s·G = R + e·P` in the group, with the challenge bytes converted to a scalar
exactly as in signing; returns `false` when the challenge is not a valid
scalar. -/
def RistrettoSchnorr.verify_challenge (sig : RistrettoSchnorr) (P : Nat) (e : List Nat) : Bool :=
  match scalarFromChallenge e with
  | none => false
  | some ec => sig.s_scalar % L == (sig.public_nonce % L + ec * (P % L)) % L

/-- Modelled from the spec: the message bytes seen at the boundary
(`msg.as_bytes()`); the byte-level text encoding is an external adapter. -/
def strBytes (s : String) : List Nat :=
  s.data.map Char.toNat

/-- Modelled from the spec: ChallengeHasher (`Blake256`), a deterministic
fixed-output 256-bit hash; the compression function itself is external to the
source, modelled as an executable 32-byte digest. -/
def Blake256 (msg : List Nat) : List Nat :=
  natToBytes32 (msg.foldl (fun a b => a * 257 + b + 1) 1 % 2 ^ 256)

/-- Modelled from the spec: `random_keypair` — `rng` stands for the scalar the
operating-system RNG yields for this draw. -/
def random_keypair (rng : Nat) : Nat × Nat :=
  (rng % L, from_secret_key (rng % L))

/-- The result envelope of the signing entry points
(`SignResult { public_nonce, signature, error }`). -/
structure SignResult where
  public_nonce : Option String
  signature : Option String
  error : String
deriving DecidableEq

/-- `Default` for `SignResult`: both success fields absent, empty error. -/
def SignResult.default : SignResult :=
  { public_nonce := none, signature := none, error := "" }

/-- The result envelope of verification
(`SignatureVerifyResult { result, error }`). -/
structure SignatureVerifyResult where
  result : Bool
  error : String
deriving DecidableEq

/-- Translation of `sign_with_key`: picks the nonce pair (caller-supplied or
drawn from the RNG, represented by `rng`), delegates to the curve sign
operation and fills the result envelope. -/
def sign_with_key (k : Nat) (e : List Nat) (r : Option Nat) (rng : Nat)
    (result : SignResult) : SignResult :=
  let rR : Nat × Nat :=
    match r with
    | some r => (r, from_secret_key r)
    | none => random_keypair rng
  match curveSign k rR.1 e with
  | Except.error msg => { result with error := "Could not create signature. " ++ msg }
  | Except.ok s =>
    { result with
        public_nonce := some (pointToHex rR.2)
        signature := some (scalarToHex s) }

/-- Translation of `sign_message_with_key`: hashes the message with Blake256
and signs the digest. -/
def sign_message_with_key (k : Nat) (msg : String) (r : Option Nat) (rng : Nat)
    (result : SignResult) : SignResult :=
  let e := Blake256 (strBytes msg)
  sign_with_key k e r rng result

/-- Translation of `pubkey_from_secret`. -/
def pubkey_from_secret (k : String) : Option String :=
  match secretFromHex k with
  | some k => some (pointToHex (from_secret_key k))
  | none => none

/-- Translation of `sign`: decode the private key, then sign the message with
a random nonce (`rng` stands for the scalar the RNG would draw). -/
def sign (private_key : String) (msg : String) (rng : Nat) : SignResult :=
  match secretFromHex private_key with
  | some k => sign_message_with_key k msg none rng SignResult.default
  | none => { SignResult.default with error := "Invalid private key" }

/-- Translation of `sign_challenge_with_nonce`: decode private key, private
nonce and raw challenge hex in that order, then sign the raw challenge bytes
with the supplied nonce (`rng` stands for the ambient RNG draw, unused on
this path). -/
def sign_challenge_with_nonce (private_key private_nonce challenge_as_hex : String)
    (rng : Nat) : SignResult :=
  match secretFromHex private_key with
  | none => { SignResult.default with error := "Invalid private key" }
  | some k =>
    match secretFromHex private_nonce with
    | none => { SignResult.default with error := "Invalid private nonce" }
    | some r =>
      match from_hex challenge_as_hex with
      | none => { SignResult.default with error := "Challenge was not valid HEX" }
      | some e => sign_with_key k e (some r) rng SignResult.default

/-- Translation of `check_signature`: decode public nonce, public key and
signature scalar in that order, hash the message, and delegate to
`verify_challenge`. -/
def check_signature (pub_nonce signature pub_key msg : String) : SignatureVerifyResult :=
  match pubFromHex pub_nonce with
  | none => { result := false, error := pub_nonce ++ " is not a valid public nonce" }
  | some R =>
    match pubFromHex pub_key with
    | none => { result := false, error := pub_key ++ " is not a valid public key" }
    | some P =>
      match secretFromHex signature with
      | none =>
        { result := false
          error := signature ++ " is not a valid hex representation of a signature" }
      | some s =>
        { result := (RistrettoSchnorr.mk R s).verify_challenge P (Blake256 (strBytes msg))
          error := "" }

/-! Helper lemmas about the boundary codec and the curve model. -/

theorem L_pos : 0 < L := by decide

theorem L_lt : L < 256 ^ 32 := by decide

theorem mod_mod_L (n : Nat) : n % L % L = n % L :=
  Nat.mod_mod_of_dvd n dvd_rfl

theorem natToBytes32_length (n : Nat) : (natToBytes32 n).length = 32 :=
  natToBytesLE_length 32 n

theorem natToBytes32_mem_lt (b n : Nat) (h : b ∈ natToBytes32 n) : b < 256 :=
  natToBytesLE_mem_lt 32 n b h

theorem bytesToNatLE_natToBytes32 (n : Nat) (h : n < 256 ^ 32) :
    bytesToNatLE (natToBytes32 n) = n := by
  rw [natToBytes32, bytesToNatLE_natToBytesLE]
  exact Nat.mod_eq_of_lt h

theorem secretFromHex_scalarToHex (x : Nat) : secretFromHex (scalarToHex x) = some (x % L) := by
  have h1 : from_hex (to_hex (natToBytes32 (x % L))) = some (natToBytes32 (x % L)) :=
    from_hex_to_hex _ fun b hb => natToBytes32_mem_lt b _ hb
  have h2 : bytesToNatLE (natToBytes32 (x % L)) = x % L :=
    bytesToNatLE_natToBytes32 _ (lt_trans (Nat.mod_lt x L_pos) L_lt)
  simp [secretFromHex, scalarToHex, h1, h2, natToBytes32_length, Nat.mod_lt x L_pos]

theorem pubFromHex_pointToHex (p : Nat) : pubFromHex (pointToHex p) = some (p % L) := by
  have h1 : from_hex (to_hex (natToBytes32 (p % L))) = some (natToBytes32 (p % L)) :=
    from_hex_to_hex _ fun b hb => natToBytes32_mem_lt b _ hb
  have h2 : bytesToNatLE (natToBytes32 (p % L)) = p % L :=
    bytesToNatLE_natToBytes32 _ (lt_trans (Nat.mod_lt p L_pos) L_lt)
  simp [pubFromHex, pointToHex, h1, h2, natToBytes32_length, Nat.mod_lt p L_pos]

theorem secretFromHex_lt {s : String} {k : Nat} (h : secretFromHex s = some k) : k < L := by
  rcases hfh : from_hex s with _ | bs
  · simp [secretFromHex, hfh] at h
  · simp only [secretFromHex, hfh] at h
    by_cases hc : bs.length = 32 ∧ bytesToNatLE bs < L
    · simp only [if_pos hc, Option.some.injEq] at h
      omega
    · simp [if_neg hc] at h

theorem Blake256_length (m : List Nat) : (Blake256 m).length = 32 :=
  natToBytes32_length _

theorem scalarFromChallenge_Blake256 (m : List Nat) :
    scalarFromChallenge (Blake256 m) = some (bytesToNatLE (Blake256 m) % L) := by
  simp [scalarFromChallenge, Blake256_length]

theorem append_ne_left (a b t : String) (h : t.length < a.length) : a ++ b ≠ t := by
  intro heq
  have hl := congrArg String.length heq
  rw [String.length_append] at hl
  omega

theorem append_ne_right (a b t : String) (h : t.length < b.length) : a ++ b ≠ t := by
  intro heq
  have hl := congrArg String.length heq
  rw [String.length_append] at hl
  omega

theorem sign_with_key_some_eq (k r rng : Nat) (e : List Nat) (ec : Nat)
    (he : scalarFromChallenge e = some ec) (h0 : r % L ≠ 0) :
    sign_with_key k e (some r) rng SignResult.default =
      { public_nonce := some (pointToHex (from_secret_key r))
        signature := some (scalarToHex ((r + ec * k) % L))
        error := "" } := by
  simp [sign_with_key, curveSign, he, h0, SignResult.default]

theorem sign_with_key_none_eq (k rng : Nat) (e : List Nat) (ec : Nat)
    (he : scalarFromChallenge e = some ec) (h0 : rng % L ≠ 0) :
    sign_with_key k e none rng SignResult.default =
      { public_nonce := some (pointToHex (from_secret_key (rng % L)))
        signature := some (scalarToHex ((rng % L + ec * k) % L))
        error := "" } := by
  simp [sign_with_key, random_keypair, curveSign, he, mod_mod_L, h0, SignResult.default]

theorem sign_with_key_shape (k : Nat) (e : List Nat) (r : Option Nat) (rng : Nat) :
    (∃ m, sign_with_key k e r rng SignResult.default =
        { public_nonce := none, signature := none
          error := "Could not create signature. " ++ m }) ∨
    (∃ pn sg, sign_with_key k e r rng SignResult.default =
        { public_nonce := some pn, signature := some sg, error := "" }) := by
  cases r with
  | none =>
    cases h : curveSign k (rng % L) e with
    | error m =>
      exact Or.inl ⟨m, by simp [sign_with_key, random_keypair, from_secret_key, mod_mod_L, h,
        SignResult.default]⟩
    | ok s =>
      exact Or.inr ⟨pointToHex (from_secret_key (rng % L)), scalarToHex s,
        by simp [sign_with_key, random_keypair, from_secret_key, mod_mod_L, h,
          SignResult.default]⟩
  | some r =>
    cases h : curveSign k r e with
    | error m =>
      exact Or.inl ⟨m, by simp [sign_with_key, h, SignResult.default]⟩
    | ok s =>
      exact Or.inr ⟨pointToHex (from_secret_key r), scalarToHex s,
        by simp [sign_with_key, h, SignResult.default]⟩

/-! Claim theorems. -/

/-- C1: Round-trip — for every message `m` and every secret key whose hex
decodes successfully, signing `m` via `sign` and then calling
`check_signature` with the returned public nonce, the returned signature,
`pubkey_from_secret` of the same key and the same message yields
`result = true`, for any nonce scalar the sign path may draw from the RNG. -/
theorem sign_roundtrip (k_hex m pk pn sg : String) (rng k : Nat)
    (hk : secretFromHex k_hex = some k)
    (hpn : (sign k_hex m rng).public_nonce = some pn)
    (hsg : (sign k_hex m rng).signature = some sg)
    (hpk : pubkey_from_secret k_hex = some pk) :
    (check_signature pn sg pk m).result = true := by
  have hkL : k < L := secretFromHex_lt hk
  have hkk : k % L = k := Nat.mod_eq_of_lt hkL
  simp only [sign, hk, sign_message_with_key] at hpn hsg
  simp only [pubkey_from_secret, hk, Option.some.injEq] at hpk
  by_cases h0 : rng % L = 0
  · exfalso
    simp [sign_with_key, random_keypair, curveSign, scalarFromChallenge_Blake256,
      mod_mod_L, h0, SignResult.default] at hpn
  · rw [sign_with_key_none_eq k rng _ _ (scalarFromChallenge_Blake256 (strBytes m)) h0]
      at hpn hsg
    simp only [Option.some.injEq] at hpn hsg
    subst hpn
    subst hsg
    subst hpk
    simp only [check_signature, from_secret_key, mod_mod_L, pubFromHex_pointToHex,
      secretFromHex_scalarToHex, hkk]
    simp only [RistrettoSchnorr.verify_challenge, scalarFromChallenge_Blake256, mod_mod_L, hkk]
    simp [mod_mod_L]

/-- Witness for C1: a full sign-then-verify round trip on concrete inputs. -/
theorem sign_roundtrip_witness :
    (check_signature (pointToHex 5) (scalarToHex 372) (pointToHex 1) "m").result = true :=
  sign_roundtrip (scalarToHex 1) "m" (pointToHex 1) (pointToHex 5) (scalarToHex 372) 5 1
    (by decide) (by decide) (by decide) (by decide)

/-- C8: `pubkey_from_secret` returns the hex encoding of the public key
derived from the decoded secret key when the hex decodes, and `none` when it
does not; as a pure function it is deterministic and has no side effects. -/
theorem pubkey_from_secret_spec (s : String) :
    (∀ k, secretFromHex s = some k →
      pubkey_from_secret s = some (pointToHex (from_secret_key k))) ∧
    (secretFromHex s = none → pubkey_from_secret s = none) := by
  constructor
  · intro k hk
    simp [pubkey_from_secret, hk]
  · intro h
    simp [pubkey_from_secret, h]

/-- Witness for C8 at the secret key 1. -/
theorem pubkey_from_secret_spec_witness :
    pubkey_from_secret (scalarToHex 1) = some (pointToHex (from_secret_key 1)) :=
  (pubkey_from_secret_spec (scalarToHex 1)).1 1 (by decide)

/-- C9: when the private-key argument is not valid hex for a secret key,
`sign` returns `public_nonce = none`, `signature = none` and
`error = "Invalid private key"`, and the result does not depend on the
message or on any RNG draw (no challenge is computed, no nonce drawn). -/
theorem sign_invalid_key (pk m : String) (rng : Nat) (h : secretFromHex pk = none) :
    sign pk m rng =
      { public_nonce := none, signature := none, error := "Invalid private key" } ∧
    ∀ (m2 : String) (rng2 : Nat), sign pk m2 rng2 = sign pk m rng := by
  constructor
  · simp [sign, h, SignResult.default]
  · intro m2 rng2
    simp [sign, h]

/-- Witness for C9 at the inputs named by the spec. -/
theorem sign_invalid_key_witness :
    sign "not-hex" "hello" 0 =
      { public_nonce := none, signature := none, error := "Invalid private key" } :=
  (sign_invalid_key "not-hex" "hello" 0 (by decide)).1

/-- C10: `sign_challenge_with_nonce` is deterministic — its result does not
depend on the RNG draw, since the nonce is caller-supplied on this path. -/
theorem sign_challenge_with_nonce_deterministic (k n c : String) (rng1 rng2 : Nat) :
    sign_challenge_with_nonce k n c rng1 = sign_challenge_with_nonce k n c rng2 := by
  unfold sign_challenge_with_nonce
  cases secretFromHex k with
  | none => rfl
  | some kk =>
    cases secretFromHex n with
    | none => rfl
    | some rr =>
      cases from_hex c with
      | none => rfl
      | some e => rfl

/-- C2: `check_signature` never reports an error for a merely mathematically
invalid signature — when all three hex inputs decode, the error is empty and
the result is exactly the boolean of the curve's verify-challenge on the
message hash; malformed input instead yields `result = false` with a
non-empty error. -/
theorem check_signature_error_discipline :
    (∀ pn sg pk m R P s, pubFromHex pn = some R → pubFromHex pk = some P →
      secretFromHex sg = some s →
      (check_signature pn sg pk m).error = "" ∧
      (check_signature pn sg pk m).result =
        (RistrettoSchnorr.mk R s).verify_challenge P (Blake256 (strBytes m))) ∧
    (∀ pn sg pk m, pubFromHex pn = none ∨ pubFromHex pk = none ∨ secretFromHex sg = none →
      (check_signature pn sg pk m).result = false ∧
      (check_signature pn sg pk m).error ≠ "") := by
  constructor
  · intro pn sg pk m R P s h1 h2 h3
    simp [check_signature, h1, h2, h3]
  · intro pn sg pk m h
    rcases h with h | h | h
    · refine ⟨by simp [check_signature, h], ?_⟩
      simp only [check_signature, h]
      exact append_ne_right pn _ "" (by decide)
    · cases hn : pubFromHex pn with
      | none =>
        refine ⟨by simp [check_signature, hn], ?_⟩
        simp only [check_signature, hn]
        exact append_ne_right pn _ "" (by decide)
      | some R =>
        refine ⟨by simp [check_signature, hn, h], ?_⟩
        simp only [check_signature, hn, h]
        exact append_ne_right pk _ "" (by decide)
    · cases hn : pubFromHex pn with
      | none =>
        refine ⟨by simp [check_signature, hn], ?_⟩
        simp only [check_signature, hn]
        exact append_ne_right pn _ "" (by decide)
      | some R =>
        cases hp : pubFromHex pk with
        | none =>
          refine ⟨by simp [check_signature, hn, hp], ?_⟩
          simp only [check_signature, hn, hp]
          exact append_ne_right pk _ "" (by decide)
        | some P =>
          refine ⟨by simp [check_signature, hn, hp, h], ?_⟩
          simp only [check_signature, hn, hp, h]
          exact append_ne_right sg _ "" (by decide)

/-- Witness for C2: a decodable triple gives an empty error and the verify
boolean; a malformed public nonce gives `false` with a non-empty error. -/
theorem check_signature_error_discipline_witness :
    ((check_signature (pointToHex 5) (scalarToHex 372) (pointToHex 1) "m").error = "" ∧
      (check_signature (pointToHex 5) (scalarToHex 372) (pointToHex 1) "m").result =
        (RistrettoSchnorr.mk 5 372).verify_challenge 1 (Blake256 (strBytes "m"))) ∧
    ((check_signature "zz" (scalarToHex 372) (pointToHex 1) "m").result = false ∧
      (check_signature "zz" (scalarToHex 372) (pointToHex 1) "m").error ≠ "") :=
  ⟨check_signature_error_discipline.1 (pointToHex 5) (scalarToHex 372) (pointToHex 1) "m"
      5 1 372 (by decide) (by decide) (by decide),
    check_signature_error_discipline.2 "zz" (scalarToHex 372) (pointToHex 1) "m"
      (Or.inl (by decide))⟩

/-- C3: result-envelope invariant — in every `SignResult` returned by `sign`
or `sign_challenge_with_nonce`, a non-empty error comes with both success
fields `none` and an empty error comes with both success fields populated;
and in every `SignatureVerifyResult` of `check_signature`, `result = true`
comes with an empty error.  All fields are always present (the envelopes are
total records). -/
theorem result_envelope :
    (∀ pk m rng,
      ((sign pk m rng).error ≠ "" →
        (sign pk m rng).public_nonce = none ∧ (sign pk m rng).signature = none) ∧
      ((sign pk m rng).error = "" →
        (∃ x, (sign pk m rng).public_nonce = some x) ∧
        (∃ y, (sign pk m rng).signature = some y))) ∧
    (∀ k n c rng,
      ((sign_challenge_with_nonce k n c rng).error ≠ "" →
        (sign_challenge_with_nonce k n c rng).public_nonce = none ∧
        (sign_challenge_with_nonce k n c rng).signature = none) ∧
      ((sign_challenge_with_nonce k n c rng).error = "" →
        (∃ x, (sign_challenge_with_nonce k n c rng).public_nonce = some x) ∧
        (∃ y, (sign_challenge_with_nonce k n c rng).signature = some y))) ∧
    (∀ pn sg pk m, (check_signature pn sg pk m).result = true →
      (check_signature pn sg pk m).error = "") := by
  refine ⟨?_, ?_, ?_⟩
  · intro pk m rng
    cases hk : secretFromHex pk with
    | none =>
      constructor
      · intro _
        simp [sign, hk, SignResult.default]
      · intro he
        exfalso
        simp [sign, hk, SignResult.default] at he
    | some k =>
      have hshape := sign_with_key_shape k (Blake256 (strBytes m)) none rng
      rcases hshape with ⟨msg, hmsg⟩ | ⟨pn, sg, hok⟩
      · constructor
        · intro _
          simp [sign, hk, sign_message_with_key, hmsg]
        · intro he
          exfalso
          simp only [sign, hk, sign_message_with_key, hmsg] at he
          exact append_ne_left "Could not create signature. " msg "" (by decide) he
      · constructor
        · intro he
          exfalso
          simp [sign, hk, sign_message_with_key, hok] at he
        · intro _
          simp [sign, hk, sign_message_with_key, hok]
  · intro k n c rng
    cases hk : secretFromHex k with
    | none =>
      constructor
      · intro _
        simp [sign_challenge_with_nonce, hk, SignResult.default]
      · intro he
        exfalso
        simp [sign_challenge_with_nonce, hk, SignResult.default] at he
    | some kk =>
      cases hn : secretFromHex n with
      | none =>
        constructor
        · intro _
          simp [sign_challenge_with_nonce, hk, hn, SignResult.default]
        · intro he
          exfalso
          simp [sign_challenge_with_nonce, hk, hn, SignResult.default] at he
      | some rr =>
        cases hc : from_hex c with
        | none =>
          constructor
          · intro _
            simp [sign_challenge_with_nonce, hk, hn, hc, SignResult.default]
          · intro he
            exfalso
            simp [sign_challenge_with_nonce, hk, hn, hc, SignResult.default] at he
        | some e =>
          have hshape := sign_with_key_shape kk e (some rr) rng
          rcases hshape with ⟨msg, hmsg⟩ | ⟨pn, sg, hok⟩
          · constructor
            · intro _
              simp [sign_challenge_with_nonce, hk, hn, hc, hmsg]
            · intro he
              exfalso
              simp only [sign_challenge_with_nonce, hk, hn, hc, hmsg] at he
              exact append_ne_left "Could not create signature. " msg "" (by decide) he
          · constructor
            · intro he
              exfalso
              simp [sign_challenge_with_nonce, hk, hn, hc, hok] at he
            · intro _
              simp [sign_challenge_with_nonce, hk, hn, hc, hok]
  · intro pn sg pk m h
    cases hn : pubFromHex pn with
    | none =>
      exfalso
      simp [check_signature, hn] at h
    | some R =>
      cases hp : pubFromHex pk with
      | none =>
        exfalso
        simp [check_signature, hn, hp] at h
      | some P =>
        cases hs : secretFromHex sg with
        | none =>
          exfalso
          simp [check_signature, hn, hp, hs] at h
        | some s =>
          simp [check_signature, hn, hp, hs]

/-- Witness for C3: the error case of `sign` has both fields `none`; the
success case of `sign_challenge_with_nonce` has both fields populated; a
`true` verification has an empty error. -/
theorem result_envelope_witness :
    ((sign "zz" "m" 0).public_nonce = none ∧ (sign "zz" "m" 0).signature = none) ∧
    ((∃ x, (sign_challenge_with_nonce (scalarToHex 1) (scalarToHex 1)
        (scalarToHex 7) 0).public_nonce = some x) ∧
      (∃ y, (sign_challenge_with_nonce (scalarToHex 1) (scalarToHex 1)
        (scalarToHex 7) 0).signature = some y)) ∧
    (check_signature (pointToHex 5) (scalarToHex 372) (pointToHex 1) "m").error = "" :=
  ⟨(result_envelope.1 "zz" "m" 0).1 (by decide),
    (result_envelope.2.1 (scalarToHex 1) (scalarToHex 1) (scalarToHex 7) 0).2 (by decide),
    result_envelope.2.2 (pointToHex 5) (scalarToHex 372) (pointToHex 1) "m" (by decide)⟩

/-- C4: `check_signature` validates the public nonce, then the public key,
then the signature scalar, short-circuiting at the first failure with
`result = false` and the value-specific message embedding the offending input
verbatim; once an earlier field fails, later fields are never inspected (the
result does not depend on them). -/
theorem check_signature_validation_order (pn sg pk m : String) :
    (pubFromHex pn = none →
      check_signature pn sg pk m =
        { result := false, error := pn ++ " is not a valid public nonce" } ∧
      ∀ sg2 pk2 : String, check_signature pn sg2 pk2 m = check_signature pn sg pk m) ∧
    (∀ R, pubFromHex pn = some R → pubFromHex pk = none →
      check_signature pn sg pk m =
        { result := false, error := pk ++ " is not a valid public key" } ∧
      ∀ sg2 : String, check_signature pn sg2 pk m = check_signature pn sg pk m) ∧
    (∀ R P, pubFromHex pn = some R → pubFromHex pk = some P → secretFromHex sg = none →
      check_signature pn sg pk m =
        { result := false
          error := sg ++ " is not a valid hex representation of a signature" }) := by
  refine ⟨?_, ?_, ?_⟩
  · intro h
    constructor
    · simp [check_signature, h]
    · intro sg2 pk2
      simp [check_signature, h]
  · intro R hR h
    constructor
    · simp [check_signature, hR, h]
    · intro sg2
      simp [check_signature, hR, h]
  · intro R P hR hP hs
    simp [check_signature, hR, hP, hs]

/-- Witness for C4: an invalid public nonce short-circuits with its specific
message, independently of the other inputs. -/
theorem check_signature_validation_order_witness :
    check_signature "zz" "00" "11" "m" =
      { result := false, error := "zz is not a valid public nonce" } :=
  ((check_signature_validation_order "zz" "00" "11" "m").1 (by decide)).1

/-- C5: `sign_challenge_with_nonce` validates the private key hex, then the
nonce hex, then the challenge hex; the first failing field short-circuits the
call with its specific error string and no partial result, and the result
does not depend on the later fields. -/
theorem sign_challenge_validation_order (k n c : String) (rng : Nat) :
    (secretFromHex k = none →
      sign_challenge_with_nonce k n c rng =
        { public_nonce := none, signature := none, error := "Invalid private key" } ∧
      ∀ (n2 c2 : String) (rng2 : Nat),
        sign_challenge_with_nonce k n2 c2 rng2 = sign_challenge_with_nonce k n c rng) ∧
    (∀ kk, secretFromHex k = some kk → secretFromHex n = none →
      sign_challenge_with_nonce k n c rng =
        { public_nonce := none, signature := none, error := "Invalid private nonce" } ∧
      ∀ (c2 : String) (rng2 : Nat),
        sign_challenge_with_nonce k n c2 rng2 = sign_challenge_with_nonce k n c rng) ∧
    (∀ kk rr, secretFromHex k = some kk → secretFromHex n = some rr → from_hex c = none →
      sign_challenge_with_nonce k n c rng =
        { public_nonce := none, signature := none, error := "Challenge was not valid HEX" }) := by
  refine ⟨?_, ?_, ?_⟩
  · intro h
    constructor
    · simp [sign_challenge_with_nonce, h, SignResult.default]
    · intro n2 c2 rng2
      simp [sign_challenge_with_nonce, h]
  · intro kk hk h
    constructor
    · simp [sign_challenge_with_nonce, hk, h, SignResult.default]
    · intro c2 rng2
      simp [sign_challenge_with_nonce, hk, h]
  · intro kk rr hk hn h
    simp [sign_challenge_with_nonce, hk, hn, h, SignResult.default]

/-- Witness for C5: an invalid private key short-circuits with its specific
message and no partial result. -/
theorem sign_challenge_validation_order_witness :
    sign_challenge_with_nonce "zz" "00" "11" 0 =
      { public_nonce := none, signature := none, error := "Invalid private key" } :=
  ((sign_challenge_validation_order "zz" "00" "11" 0).1 (by decide)).1

/-- C6 counterexample: two different valid challenge hex strings — the same
challenge written once in lowercase and once in uppercase hex — with the same
valid key/nonce pair both succeed but produce the same signature scalar, so
two different valid challenge hex strings do not always produce two different
signatures. -/
theorem nonce_reuse_hex_counterexample :
    ("aaaaaaaaaaaaaaaaaaaaaaaaaaaaaaaaaaaaaaaaaaaaaaaaaaaaaaaaaaaaaaaa" : String) ≠
      "AAAAAAAAAAAAAAAAAAAAAAAAAAAAAAAAAAAAAAAAAAAAAAAAAAAAAAAAAAAAAAAA" ∧
    (sign_challenge_with_nonce
      "0100000000000000000000000000000000000000000000000000000000000000"
      "0100000000000000000000000000000000000000000000000000000000000000"
      "aaaaaaaaaaaaaaaaaaaaaaaaaaaaaaaaaaaaaaaaaaaaaaaaaaaaaaaaaaaaaaaa" 0).error = "" ∧
    (sign_challenge_with_nonce
      "0100000000000000000000000000000000000000000000000000000000000000"
      "0100000000000000000000000000000000000000000000000000000000000000"
      "AAAAAAAAAAAAAAAAAAAAAAAAAAAAAAAAAAAAAAAAAAAAAAAAAAAAAAAAAAAAAAAA" 0).error = "" ∧
    (sign_challenge_with_nonce
      "0100000000000000000000000000000000000000000000000000000000000000"
      "0100000000000000000000000000000000000000000000000000000000000000"
      "aaaaaaaaaaaaaaaaaaaaaaaaaaaaaaaaaaaaaaaaaaaaaaaaaaaaaaaaaaaaaaaa" 0).signature =
    (sign_challenge_with_nonce
      "0100000000000000000000000000000000000000000000000000000000000000"
      "0100000000000000000000000000000000000000000000000000000000000000"
      "AAAAAAAAAAAAAAAAAAAAAAAAAAAAAAAAAAAAAAAAAAAAAAAAAAAAAAAAAAAAAAAA" 0).signature := by
  refine ⟨by decide, by decide, by decide, by decide⟩

/-- C6 (amended): `sign_challenge_with_nonce` called twice with the same
valid key/nonce pair — nonzero nonce scalar, key scalar coprime to the group
order — and two valid challenge hexes that decode to 32-byte strings with
distinct scalar reductions mod the group order succeeds on both calls,
produces the same public nonce both times, and produces two different
signature scalars, each of which verifies against its own challenge. -/
theorem nonce_reuse_distinct_challenges (khex rhex c1 c2 : String)
    (rng1 rng2 k r : Nat) (e1 e2 : List Nat)
    (hk : secretFromHex khex = some k) (hr : secretFromHex rhex = some r)
    (hr0 : r ≠ 0) (hcop : Nat.Coprime k L)
    (hc1 : from_hex c1 = some e1) (hc2 : from_hex c2 = some e2)
    (hl1 : e1.length = 32) (hl2 : e2.length = 32)
    (hne : bytesToNatLE e1 % L ≠ bytesToNatLE e2 % L) :
    (sign_challenge_with_nonce khex rhex c1 rng1).error = "" ∧
    (sign_challenge_with_nonce khex rhex c2 rng2).error = "" ∧
    (sign_challenge_with_nonce khex rhex c1 rng1).public_nonce =
      some (pointToHex (from_secret_key r)) ∧
    (sign_challenge_with_nonce khex rhex c2 rng2).public_nonce =
      some (pointToHex (from_secret_key r)) ∧
    (sign_challenge_with_nonce khex rhex c1 rng1).signature ≠
      (sign_challenge_with_nonce khex rhex c2 rng2).signature ∧
    (∃ s1, (sign_challenge_with_nonce khex rhex c1 rng1).signature =
        some (scalarToHex s1) ∧
      (RistrettoSchnorr.mk (from_secret_key r) s1).verify_challenge
        (from_secret_key k) e1 = true) ∧
    (∃ s2, (sign_challenge_with_nonce khex rhex c2 rng2).signature =
        some (scalarToHex s2) ∧
      (RistrettoSchnorr.mk (from_secret_key r) s2).verify_challenge
        (from_secret_key k) e2 = true) := by
  have hkL : k < L := secretFromHex_lt hk
  have hrL : r < L := secretFromHex_lt hr
  have hkk : k % L = k := Nat.mod_eq_of_lt hkL
  have hrr : r % L = r := Nat.mod_eq_of_lt hrL
  have hr0' : r % L ≠ 0 := by rw [hrr]; exact hr0
  have hec1 : scalarFromChallenge e1 = some (bytesToNatLE e1 % L) := by
    simp [scalarFromChallenge, hl1]
  have hec2 : scalarFromChallenge e2 = some (bytesToNatLE e2 % L) := by
    simp [scalarFromChallenge, hl2]
  have h1 : sign_challenge_with_nonce khex rhex c1 rng1 =
      { public_nonce := some (pointToHex (from_secret_key r))
        signature := some (scalarToHex ((r + bytesToNatLE e1 % L * k) % L))
        error := "" } := by
    have hu : sign_challenge_with_nonce khex rhex c1 rng1 =
        sign_with_key k e1 (some r) rng1 SignResult.default := by
      simp [sign_challenge_with_nonce, hk, hr, hc1]
    rw [hu]
    exact sign_with_key_some_eq k r rng1 e1 _ hec1 hr0'
  have h2 : sign_challenge_with_nonce khex rhex c2 rng2 =
      { public_nonce := some (pointToHex (from_secret_key r))
        signature := some (scalarToHex ((r + bytesToNatLE e2 % L * k) % L))
        error := "" } := by
    have hu : sign_challenge_with_nonce khex rhex c2 rng2 =
        sign_with_key k e2 (some r) rng2 SignResult.default := by
      simp [sign_challenge_with_nonce, hk, hr, hc2]
    rw [hu]
    exact sign_with_key_some_eq k r rng2 e2 _ hec2 hr0'
  refine ⟨by rw [h1], by rw [h2], by rw [h1], by rw [h2], ?_, ?_, ?_⟩
  · rw [h1, h2]
    simp only [Option.some.injEq, ne_eq]
    intro heq
    have hsfh := congrArg secretFromHex heq
    rw [secretFromHex_scalarToHex, secretFromHex_scalarToHex] at hsfh
    simp only [Option.some.injEq, mod_mod_L] at hsfh
    have hmod : Nat.ModEq L (r + bytesToNatLE e1 % L * k) (r + bytesToNatLE e2 % L * k) := hsfh
    have hcan : Nat.ModEq L (bytesToNatLE e1 % L * k) (bytesToNatLE e2 % L * k) :=
      Nat.ModEq.add_left_cancel' r hmod
    have hfin : Nat.ModEq L (bytesToNatLE e1 % L) (bytesToNatLE e2 % L) :=
      Nat.ModEq.cancel_right_of_coprime hcop.symm hcan
    have : bytesToNatLE e1 % L = bytesToNatLE e2 % L := by
      have h := hfin
      unfold Nat.ModEq at h
      rwa [mod_mod_L, mod_mod_L] at h
    exact hne this
  · refine ⟨(r + bytesToNatLE e1 % L * k) % L, by rw [h1], ?_⟩
    simp [RistrettoSchnorr.verify_challenge, hec1, from_secret_key, mod_mod_L, hkk, hrr]
  · refine ⟨(r + bytesToNatLE e2 % L * k) % L, by rw [h2], ?_⟩
    simp [RistrettoSchnorr.verify_challenge, hec2, from_secret_key, mod_mod_L, hkk, hrr]

/-- Witness for the amended C6 at concrete inputs: challenges 0 and 1 under
key 1 and nonce 1 give different signatures. -/
theorem nonce_reuse_distinct_challenges_witness :
    (sign_challenge_with_nonce (scalarToHex 1) (scalarToHex 1) (scalarToHex 0) 0).signature ≠
      (sign_challenge_with_nonce (scalarToHex 1) (scalarToHex 1) (scalarToHex 1) 0).signature :=
  (nonce_reuse_distinct_challenges (scalarToHex 1) (scalarToHex 1) (scalarToHex 0)
      (scalarToHex 1) 0 0 1 1 (natToBytes32 0) (natToBytes32 1)
      (by decide) (by decide) (by decide) (Nat.coprime_one_left L)
      (by decide) (by decide) (by decide) (by decide) (by decide)).2.2.2.2.1

/-- C7: in `sign_challenge_with_nonce` the challenge is not hashed — the
hex-decoded raw bytes, of arbitrary length, are handed directly to the curve
sign operation — and the nonce is decoded from the nonce hex, its public
counterpart derived as the public key of that scalar. -/
theorem sign_challenge_raw (khex nhex c : String) (rng k r : Nat) (e : List Nat)
    (hk : secretFromHex khex = some k) (hn : secretFromHex nhex = some r)
    (hc : from_hex c = some e) :
    sign_challenge_with_nonce khex nhex c rng =
      sign_with_key k e (some r) rng SignResult.default ∧
    (sign_challenge_with_nonce khex nhex c rng).error ≠ "Challenge was not valid HEX" ∧
    (∀ ec, scalarFromChallenge e = some ec → r % L ≠ 0 →
      (sign_challenge_with_nonce khex nhex c rng).public_nonce =
        some (pointToHex (from_secret_key r)) ∧
      (sign_challenge_with_nonce khex nhex c rng).signature =
        some (scalarToHex ((r + ec * k) % L))) := by
  have heq : sign_challenge_with_nonce khex nhex c rng =
      sign_with_key k e (some r) rng SignResult.default := by
    simp [sign_challenge_with_nonce, hk, hn, hc]
  refine ⟨heq, ?_, ?_⟩
  · rw [heq]
    rcases sign_with_key_shape k e (some r) rng with ⟨msg, hmsg⟩ | ⟨pn, sg, hok⟩
    · rw [hmsg]
      exact append_ne_left "Could not create signature. " msg
        "Challenge was not valid HEX" (by decide)
    · rw [hok]
      show ("" : String) ≠ "Challenge was not valid HEX"
      decide
  · intro ec hec h0
    rw [heq, sign_with_key_some_eq k r rng e ec hec h0]
    exact ⟨rfl, rfl⟩

/-- Witness for C7: a two-byte challenge decodes and is passed raw to the
curve sign operation. -/
theorem sign_challenge_raw_witness :
    sign_challenge_with_nonce (scalarToHex 1) (scalarToHex 1) "abcd" 0 =
      sign_with_key 1 [171, 205] (some 1) 0 SignResult.default :=
  (sign_challenge_raw (scalarToHex 1) (scalarToHex 1) "abcd" 0 1 1 [171, 205]
    (by decide) (by decide) (by decide)).1

end KeyUtils
